import Mathlib

/-!
Verification of the CFG pruning pass and the statement type checker of
src/src/crab/cfg.cpp, as a shallow embedding in Lean 4.

Part 1 embeds the control-flow graph and `cfg_t::remove_useless_blocks`
(pruning of blocks that cannot reach the exit, via a reachability
traversal of the reversed graph).  The helpers `cfg_rev_t`,
`mark_alive_blocks` and `remove` live in headers that are not part of
the sources; they are modelled from the spec where noted.

Part 2 embeds the `type_checker_visitor` statement checks verbatim.
-/

set_option maxHeartbeats 1000000

/-! ### Part 1: CFG and pruning -/

/-- Control-flow graph: blocks are labelled by naturals; `edges` is the
successor relation; `exit` is the optional exit label.  Mirrors the
`cfg_t` schema described in the spec (blocks, entry, optional exit,
adjacency). -/
structure cfg_t where
  blocks : List Nat
  edges : List (Nat × Nat)
  entry : Nat
  exit : Option Nat
deriving DecidableEq, Repr

/-- Well-formedness invariant of a CFG, from the spec: block labels are
distinct, every label appearing in an edge names an existing block, and
the exit label (when present) names an existing block. -/
def cfg_t.WF (cfg : cfg_t) : Prop :=
  cfg.blocks.Nodup ∧
  (∀ p ∈ cfg.edges, p.1 ∈ cfg.blocks ∧ p.2 ∈ cfg.blocks) ∧
  (∀ e, cfg.exit = some e → e ∈ cfg.blocks)

instance (cfg : cfg_t) : Decidable cfg.WF := by
  unfold cfg_t.WF
  infer_instance

/-- Successors of a label in the CFG. -/
def cfg_t.succs (cfg : cfg_t) (x : Nat) : List Nat :=
  (cfg.edges.filter (fun p => p.1 == x)).map Prod.snd

/-- Successors of a label in the reversed graph (`cfg_rev_t`):
the predecessors in the original graph. -/
def cfg_t.rev_succs (cfg : cfg_t) (x : Nat) : List Nat :=
  (cfg.edges.filter (fun p => p.2 == x)).map Prod.fst

/-- Reachability along a successor function: reflexive-transitive
closure of list membership in `succ`. -/
inductive ReachL (succ : Nat → List Nat) : Nat → Nat → Prop
  | refl (a : Nat) : ReachL succ a a
  | step {a b c : Nat} : b ∈ succ a → ReachL succ b c → ReachL succ a c

/-- A path from `a` to `b` along the edges of the CFG. -/
def cfg_t.Reaches (cfg : cfg_t) (a b : Nat) : Prop :=
  ReachL cfg.succs a b

theorem length_filter_le_of_imp (p q : Nat → Bool) (l : List Nat)
    (h : ∀ a, p a = true → q a = true) :
    (l.filter p).length ≤ (l.filter q).length := by
  induction l with
  | nil => simp
  | cons a l ih =>
    by_cases hp : p a = true
    · simp [List.filter, hp, h a hp]
      omega
    · simp only [Bool.not_eq_true] at hp
      by_cases hq : q a = true <;> simp [List.filter, hp, hq] <;> omega

theorem length_filter_cons_lt (nodes visited : List Nat) (x : Nat)
    (hx : x ∈ nodes) (hnv : x ∉ visited) :
    (nodes.filter (fun b => decide (b ∉ x :: visited))).length <
      (nodes.filter (fun b => decide (b ∉ visited))).length := by
  induction nodes with
  | nil => cases hx
  | cons a l ih =>
    by_cases hax : a = x
    · subst hax
      have h1 : (decide (a ∉ a :: visited)) = false := by simp
      have h2 : (decide (a ∉ visited)) = true := by simpa using hnv
      have hle := length_filter_le_of_imp
        (fun b => decide (b ∉ a :: visited)) (fun b => decide (b ∉ visited)) l
        (fun b hb => by
          simp only [decide_eq_true_eq] at hb ⊢
          exact fun h => hb (List.mem_cons_of_mem a h))
      rw [List.filter_cons, List.filter_cons, h1, h2]
      simp only [if_false, if_true, List.length_cons, Bool.false_eq_true]
      omega
    · have hx' : x ∈ l := by
        cases hx with
        | head => exact absurd rfl hax
        | tail _ h => exact h
      have heq : (decide (a ∉ x :: visited)) = (decide (a ∉ visited)) := by
        by_cases hav : a ∈ visited
        · simp [hav]
        · simp [List.mem_cons, hav, hax]
      rw [List.filter_cons, List.filter_cons, heq]
      by_cases hk : (decide (a ∉ visited)) = true
      · rw [hk]
        simp only [if_true, List.length_cons]
        have := ih hx'
        omega
      · simp only [Bool.not_eq_true] at hk
        rw [hk]
        simp only [if_false, Bool.false_eq_true]
        exact ih hx'

/-- Modelled from the spec: the reachability traversal of
`mark_alive_blocks` (declared in cfg.hpp, body not under src/).  A
worklist traversal over the successor function `succ`, visiting each
block at most once, restricted to the labels in `nodes`; `visited`
accumulates the blocks found alive. -/
def dfsAux (nodes : List Nat) (succ : Nat → List Nat) :
    List Nat → List Nat → List Nat
  | [], visited => visited
  | x :: stack, visited =>
    if x ∈ visited ∨ x ∉ nodes then
      dfsAux nodes succ stack visited
    else
      dfsAux nodes succ (succ x ++ stack) (x :: visited)
termination_by stack visited =>
  ((nodes.filter (fun b => decide (b ∉ visited))).length, stack.length)
decreasing_by
  · apply Prod.Lex.right
    simp
  · apply Prod.Lex.left
    rename_i h
    push_neg at h
    exact length_filter_cons_lt nodes visited x h.2 h.1

/-- Modelled from the spec: `mark_alive_blocks(rev_cfg.entry(), rev_cfg,
useful)` — reachability traversal from the exit label over the reversed
graph, producing the set of blocks from which the exit is reachable in
the original graph. -/
def cfg_t.mark_alive_blocks (cfg : cfg_t) (e : Nat) : List Nat :=
  dfsAux cfg.blocks cfg.rev_succs [e] []

/-- Embedding of `cfg_t::remove_useless_blocks`: if the CFG has no exit,
do nothing; otherwise compute the alive blocks by the reversed-graph
traversal from the exit and delete every other block together with all
edges touching it (the spec describes `remove`, whose body is not under
src/, as deleting the block and all edges touching it). -/
def cfg_t.remove_useless_blocks (cfg : cfg_t) : cfg_t :=
  match cfg.exit with
  | none => cfg
  | some e =>
    let alive := cfg.mark_alive_blocks e
    { blocks := cfg.blocks.filter (fun b => b ∈ alive),
      edges := cfg.edges.filter (fun p => p.1 ∈ alive ∧ p.2 ∈ alive),
      entry := cfg.entry,
      exit := cfg.exit }

/-! ### Part 2: the statement type checker of `type_checker_visitor` -/

/-- Variable types occurring in cfg.cpp: `INT_TYPE` (scalar integer)
and `ARR_INT_TYPE` (array of integers). -/
inductive variable_type_t
  | INT_TYPE
  | ARR_INT_TYPE
deriving DecidableEq, Repr

/-- A `variable_t`: a name index, a type, and (meaningful only for
`INT_TYPE`) a bit-width. -/
structure variable_t where
  index : Nat
  type : variable_type_t
  bitwidth : Nat
deriving DecidableEq, Repr

/-- Modelled from the spec: a `linear_expression_t` of the external
arithmetic library — a constant plus a linear combination of variables
(kept normalized upstream: nonzero coefficients, distinct variables). -/
structure linear_expression_t where
  cst : Int
  terms : List (Int × variable_t)
deriving DecidableEq, Repr

/-- Modelled from the spec: `is_constant()` holds iff the expression
has no variable terms. -/
def linear_expression_t.is_constant (e : linear_expression_t) : Bool :=
  e.terms.isEmpty

/-- Modelled from the spec: `get_variable()` is present iff the
expression is exactly one variable with coefficient 1 and no constant
term. -/
def linear_expression_t.get_variable (e : linear_expression_t) :
    Option variable_t :=
  match e.terms with
  | [(c, v)] => if c = 1 ∧ e.cst = 0 then some v else none
  | _ => none

/-- Modelled from the spec: `variables()`, the variables referenced by
the expression. -/
def linear_expression_t.variables (e : linear_expression_t) :
    List variable_t :=
  e.terms.map Prod.snd

/-- Modelled from the spec: `equal`, syntactic equality of linear
expressions. -/
def linear_expression_t.equal (e1 e2 : linear_expression_t) : Bool :=
  decide (e1 = e2)

/-- Modelled from the spec: relational operator of a linear
constraint. -/
inductive constraint_kind_t
  | EQUALITY
  | DISEQUATION
  | INEQUALITY
deriving DecidableEq, Repr

/-- Modelled from the spec: a `linear_constraint_t` is a linear
expression plus a relational operator; the checker only consults its
variable set. -/
structure linear_constraint_t where
  kind : constraint_kind_t
  exp : linear_expression_t
deriving DecidableEq, Repr

/-- Variables referenced by a constraint. -/
def linear_constraint_t.variables (c : linear_constraint_t) :
    List variable_t :=
  c.exp.variables

/-- Statement `binary_op_t` with fields lhs, left, right. -/
structure binary_op_t where
  lhs : variable_t
  left : linear_expression_t
  right : linear_expression_t
deriving DecidableEq, Repr

/-- Statement `assign_t` with fields lhs, rhs. -/
structure assign_t where
  lhs : variable_t
  rhs : linear_expression_t
deriving DecidableEq, Repr

/-- Statement `assume_t` carrying a constraint. -/
structure assume_t where
  constraint : linear_constraint_t
deriving DecidableEq, Repr

/-- Statement `assert_t` carrying a constraint. -/
structure assert_t where
  constraint : linear_constraint_t
deriving DecidableEq, Repr

/-- Statement `select_t` with fields lhs, cond, left, right. -/
structure select_t where
  lhs : variable_t
  cond : linear_constraint_t
  left : linear_expression_t
  right : linear_expression_t
deriving DecidableEq, Repr

/-- Statement `havoc_t`. -/
structure havoc_t where
  lhs : variable_t
deriving DecidableEq, Repr

/-- Statement `array_init_t`. -/
structure array_init_t where
  array : variable_t
  elem_size : linear_expression_t
  lb_index : linear_expression_t
  ub_index : linear_expression_t
  val : linear_expression_t
deriving DecidableEq, Repr

/-- Statement `array_store_t`. -/
structure array_store_t where
  array : variable_t
  elem_size : linear_expression_t
  lb_index : linear_expression_t
  ub_index : linear_expression_t
  value : linear_expression_t
  is_singleton : Bool
deriving DecidableEq, Repr

/-- Statement `array_load_t` with fields lhs, array, elem_size. -/
structure array_load_t where
  lhs : variable_t
  array : variable_t
  elem_size : linear_expression_t
deriving DecidableEq, Repr

/-- Outcome of a check: success, or the fatal `CRAB_ERROR` message. -/
abbrev check_result := Except String Unit

/-- True iff the check raised no error. -/
def accepts : check_result → Bool
  | Except.ok _ => true
  | Except.error _ => false

/-- Fail-fast sequencing: `CRAB_ERROR` aborts the whole check, so a
later check runs only when every earlier one passed. -/
def andThen (a b : check_result) : check_result :=
  match a with
  | Except.ok _ => b
  | Except.error msg => Except.error msg

/-- Embeds `type_checker_visitor::check_num`. -/
def check_num (v : variable_t) (msg : String) : check_result :=
  if v.type ≠ variable_type_t.INT_TYPE then Except.error msg
  else Except.ok ()

/-- Embeds `type_checker_visitor::check_int` (unused by the visitor
dispatch, kept for completeness). -/
def check_int (v : variable_t) (msg : String) : check_result :=
  if v.type ≠ variable_type_t.INT_TYPE ∨ v.bitwidth ≤ 1 then
    Except.error msg
  else Except.ok ()

/-- Embeds `type_checker_visitor::check_bitwidth_if_int`. -/
def check_bitwidth_if_int (v : variable_t) (msg : String) : check_result :=
  if v.type = variable_type_t.INT_TYPE then
    if v.bitwidth ≤ 1 then Except.error msg else Except.ok ()
  else Except.ok ()

/-- Embeds `type_checker_visitor::check_same_type`. -/
def check_same_type (v1 v2 : variable_t) (msg : String) : check_result :=
  if v1.type ≠ v2.type then Except.error msg else Except.ok ()

/-- Embeds `type_checker_visitor::check_same_bitwidth` (only enforced
when `v1` is of integer type). -/
def check_same_bitwidth (v1 v2 : variable_t) (msg : String) : check_result :=
  if v1.type = variable_type_t.INT_TYPE then
    if v1.bitwidth ≠ v2.bitwidth then Except.error msg else Except.ok ()
  else Except.ok ()

/-- Embeds `type_checker_visitor::check_num_or_var`. -/
def check_num_or_var (e : linear_expression_t) (msg : String) : check_result :=
  if !(e.is_constant || e.get_variable.isSome) then Except.error msg
  else Except.ok ()

/-- Embeds `type_checker_visitor::check_array`. -/
def check_array (v : variable_t) : check_result :=
  match v.type with
  | variable_type_t.ARR_INT_TYPE => Except.ok ()
  | _ => Except.error "must be an array variable"

/-- Embeds `type_checker_visitor::check_array_and_scalar_type`. -/
def check_array_and_scalar_type (v1 v2 : variable_t) : check_result :=
  match v1.type with
  | variable_type_t.ARR_INT_TYPE =>
    if v2.type = variable_type_t.INT_TYPE then Except.ok ()
    else Except.error "do not have consistent types"
  | _ => Except.error "must be an array variable"

/-- The per-variable loop bodies of the assign and select left/right
checks: each referenced variable must agree with `lhs` in type and (for
integers) bit-width. -/
def check_vars_vs_lhs (lhs : variable_t) (msgT msgB : String) :
    List variable_t → check_result
  | [] => Except.ok ()
  | v :: vs =>
    andThen (check_same_type lhs v msgT)
    (andThen (check_same_bitwidth lhs v msgB)
    (check_vars_vs_lhs lhs msgT msgB vs))

/-- The assume/assert loop anchored on the first variable seen
(`first_var` in the source): each variable must be numeric and agree
with the first variable in type and bit-width.  The source runs the
anchor comparisons on the first variable itself as well (trivially). -/
def check_first_anchored_vars (first : variable_t)
    (msgN msgT msgB : String) : List variable_t → check_result
  | [] => Except.ok ()
  | v :: vs =>
    andThen (check_num v msgN)
    (andThen (check_same_type first v msgT)
    (andThen (check_same_bitwidth first v msgB)
    (check_first_anchored_vars first msgN msgT msgB vs)))

/-- The select condition loop: each condition variable must be numeric,
agree in type with lhs, and agree with the first condition variable in
type and bit-width. -/
def check_select_cond_vars (lhs first : variable_t) :
    List variable_t → check_result
  | [] => Except.ok ()
  | v :: vs =>
    andThen (check_num v "assume variables must be integer or real")
    (andThen (check_same_type lhs v
      "inconsistent types in select condition variables")
    (andThen (check_same_type first v
      "inconsistent types in select condition variables")
    (andThen (check_same_bitwidth first v
      "inconsistent bitwidths in select condition variables")
    (check_select_cond_vars lhs first vs))))

/-- Embeds `operator()(const binary_op_t&)`. -/
def check_binary_op (s : binary_op_t) : check_result :=
  andThen (check_num s.lhs "lhs must be integer or real")
  (andThen (check_bitwidth_if_int s.lhs "lhs must be have bitwidth > 1")
  (andThen
    (match s.left.get_variable with
     | some v1 =>
       andThen (check_same_type s.lhs v1
         "first operand cannot have different type from lhs")
       (check_same_bitwidth s.lhs v1
         "first operand cannot have different bitwidth from lhs")
     | none => Except.error "first binary operand must be a variable")
    (match s.right.get_variable with
     | some v2 =>
       andThen (check_same_type s.lhs v2
         "second operand cannot have different type from lhs")
       (check_same_bitwidth s.lhs v2
         "second operand cannot have different bitwidth from lhs")
     | none => Except.ok ())))

/-- Embeds `operator()(const assign_t&)`. -/
def check_assign (s : assign_t) : check_result :=
  andThen (check_num s.lhs "lhs must be integer or real")
  (andThen (check_bitwidth_if_int s.lhs "lhs must be have bitwidth > 1")
  (check_vars_vs_lhs s.lhs "variable cannot have different type from lhs"
    "variable cannot have different bitwidth from lhs" s.rhs.variables))

/-- Embeds `operator()(const assume_t&)`. -/
def check_assume (s : assume_t) : check_result :=
  match s.constraint.variables with
  | [] => Except.ok ()
  | v0 :: vs =>
    check_first_anchored_vars v0 "assume variables must be integer or real"
      "inconsistent types in assume variables"
      "inconsistent bitwidths in assume variables" (v0 :: vs)

/-- Embeds `operator()(const assert_t&)`. -/
def check_assert (s : assert_t) : check_result :=
  match s.constraint.variables with
  | [] => Except.ok ()
  | v0 :: vs =>
    check_first_anchored_vars v0 "assert variables must be integer or real"
      "inconsistent types in assert variables"
      "inconsistent bitwidths in assert variables" (v0 :: vs)

/-- Embeds `operator()(const select_t&)`. -/
def check_select (s : select_t) : check_result :=
  andThen (check_num s.lhs "lhs must be integer or real")
  (andThen (check_bitwidth_if_int s.lhs "lhs must be have bitwidth > 1")
  (andThen (check_vars_vs_lhs s.lhs "inconsistent types in select variables"
      "inconsistent bitwidths in select variables" s.left.variables)
  (andThen (check_vars_vs_lhs s.lhs "inconsistent types in select variables"
      "inconsistent bitwidths in select variables" s.right.variables)
  (match s.cond.variables with
   | [] => Except.ok ()
   | v0 :: vs => check_select_cond_vars s.lhs v0 (v0 :: vs)))))

/-- Embeds `operator()(const havoc_t&)`: no checks. -/
def check_havoc (_s : havoc_t) : check_result :=
  Except.ok ()

/-- Embeds `operator()(const array_init_t&)`. -/
def check_array_init (s : array_init_t) : check_result :=
  andThen (check_array s.array)
  (andThen (check_num_or_var s.elem_size
    "element size must be number or variable")
  (andThen (check_num_or_var s.lb_index
    "array lower bound must be number or variable")
  (andThen (check_num_or_var s.ub_index
    "array upper bound must be number or variable")
  (andThen (check_num_or_var s.val
    "array value must be number or variable")
  (match s.val.get_variable with
   | some vv => check_array_and_scalar_type s.array vv
   | none => Except.ok ())))))

/-- Embeds `operator()(const array_store_t&)`: the singleton check runs
first, before any type check. -/
def check_array_store (s : array_store_t) : check_result :=
  andThen
    (if s.is_singleton then
       (if s.lb_index.equal s.ub_index then Except.ok ()
        else Except.error
          "lower and upper indexes must be equal because array is a singleton")
     else Except.ok ())
  (andThen (check_array s.array)
  (andThen (check_num_or_var s.elem_size
    "element size must be number or variable")
  (andThen (check_num_or_var s.value
    "array value must be number or variable")
  (match s.value.get_variable with
   | some vv => check_array_and_scalar_type s.array vv
   | none => Except.ok ()))))

/-- Embeds `operator()(const array_load_t&)`. -/
def check_array_load (s : array_load_t) : check_result :=
  andThen (check_array s.array)
  (andThen (check_num_or_var s.elem_size
    "element size must be number or variable")
  (check_array_and_scalar_type s.array s.lhs))

/-- The closed statement variant (`new_statement_t`); `Skip` is the
`std::monostate` alternative. -/
inductive new_statement_t
  | BinOp (s : binary_op_t)
  | Assign (s : assign_t)
  | Assume (s : assume_t)
  | Assert (s : assert_t)
  | Select (s : select_t)
  | Havoc (s : havoc_t)
  | ArrayInit (s : array_init_t)
  | ArrayStore (s : array_store_t)
  | ArrayLoad (s : array_load_t)
  | Skip
deriving DecidableEq, Repr

/-- The `std::visit` dispatch of `type_checker_visitor`. -/
def check_statement : new_statement_t → check_result
  | new_statement_t.BinOp s => check_binary_op s
  | new_statement_t.Assign s => check_assign s
  | new_statement_t.Assume s => check_assume s
  | new_statement_t.Assert s => check_assert s
  | new_statement_t.Select s => check_select s
  | new_statement_t.Havoc s => check_havoc s
  | new_statement_t.ArrayInit s => check_array_init s
  | new_statement_t.ArrayStore s => check_array_store s
  | new_statement_t.ArrayLoad s => check_array_load s
  | new_statement_t.Skip => Except.ok ()

/-- Embeds `type_check`: visit every statement of every block in order,
stopping at the first violation. -/
def type_check : List (List new_statement_t) → check_result
  | [] => Except.ok ()
  | bb :: rest =>
    andThen (bb.foldr (fun st acc => andThen (check_statement st) acc)
      (Except.ok ()))
    (type_check rest)

/-! ### Part 1 helper lemmas for the pruning proofs -/

theorem ReachL.snoc {succ : Nat → List Nat} {a b c : Nat}
    (h : ReachL succ a b) (hc : c ∈ succ b) : ReachL succ a c := by
  induction h with
  | refl a => exact ReachL.step hc (ReachL.refl c)
  | step hab _ ih => exact ReachL.step hab (ih hc)

theorem ReachL.flip {f g : Nat → List Nat}
    (hfg : ∀ x y, y ∈ f x → x ∈ g y) {a b : Nat}
    (h : ReachL f a b) : ReachL g b a := by
  induction h with
  | refl a => exact ReachL.refl a
  | step hb _ ih => exact ih.snoc (hfg _ _ hb)

theorem mem_succs (cfg : cfg_t) (x y : Nat) :
    y ∈ cfg.succs x ↔ (x, y) ∈ cfg.edges := by
  unfold cfg_t.succs
  constructor
  · intro h
    rcases List.mem_map.mp h with ⟨p, hp, hsnd⟩
    rcases List.mem_filter.mp hp with ⟨hpe, hfst⟩
    have h1 : p.1 = x := by simpa using hfst
    have : p = (x, y) := by
      cases p
      simp_all
    rw [this] at hpe
    exact hpe
  · intro h
    apply List.mem_map.mpr
    refine ⟨(x, y), List.mem_filter.mpr ⟨h, by simp⟩, rfl⟩

theorem mem_rev_succs (cfg : cfg_t) (x y : Nat) :
    y ∈ cfg.rev_succs x ↔ (y, x) ∈ cfg.edges := by
  unfold cfg_t.rev_succs
  constructor
  · intro h
    rcases List.mem_map.mp h with ⟨p, hp, hfst⟩
    rcases List.mem_filter.mp hp with ⟨hpe, hsnd⟩
    have h1 : p.2 = x := by simpa using hsnd
    have : p = (y, x) := by
      cases p
      simp_all
    rw [this] at hpe
    exact hpe
  · intro h
    apply List.mem_map.mpr
    refine ⟨(y, x), List.mem_filter.mpr ⟨h, by simp⟩, rfl⟩

theorem dfs_visited_subset (nodes : List Nat) (succ : Nat → List Nat) :
    ∀ stack visited, ∀ v ∈ visited, v ∈ dfsAux nodes succ stack visited := by
  intro stack visited
  induction stack, visited using dfsAux.induct nodes succ with
  | case1 visited => intro v hv; rw [dfsAux]; exact hv
  | case2 x stack visited h ih =>
    intro v hv
    rw [dfsAux, if_pos h]
    exact ih v hv
  | case3 x stack visited h ih =>
    intro v hv
    rw [dfsAux, if_neg h]
    exact ih v (List.mem_cons_of_mem x hv)

theorem dfs_sound (nodes : List Nat) (succ : Nat → List Nat) (P : Nat → Prop)
    (hP : ∀ a b, P a → b ∈ succ a → P b) :
    ∀ stack visited, (∀ s ∈ stack, P s) → (∀ v ∈ visited, P v) →
      ∀ x ∈ dfsAux nodes succ stack visited, P x := by
  intro stack visited
  induction stack, visited using dfsAux.induct nodes succ with
  | case1 visited =>
    intro _ hvis x hx
    rw [dfsAux] at hx
    exact hvis x hx
  | case2 x stack visited h ih =>
    intro hstack hvis y hy
    rw [dfsAux, if_pos h] at hy
    exact ih (fun s hs => hstack s (List.mem_cons_of_mem x hs)) hvis y hy
  | case3 x stack visited h ih =>
    intro hstack hvis y hy
    rw [dfsAux, if_neg h] at hy
    have hPx : P x := hstack x (List.mem_cons_self x stack)
    apply ih _ _ y hy
    · intro s hs
      rcases List.mem_append.mp hs with hs | hs
      · exact hP x s hPx hs
      · exact hstack s (List.mem_cons_of_mem x hs)
    · intro v hv
      rcases List.mem_cons.mp hv with rfl | hv
      · exact hPx
      · exact hvis v hv

theorem dfs_complete (nodes : List Nat) (succ : Nat → List Nat) :
    ∀ stack visited,
      (∀ v ∈ visited, ∀ y ∈ succ v, y ∈ nodes → y ∈ visited ∨ y ∈ stack) →
      (∀ v ∈ dfsAux nodes succ stack visited, ∀ y ∈ succ v, y ∈ nodes →
         y ∈ dfsAux nodes succ stack visited) ∧
      (∀ s ∈ stack, s ∈ nodes → s ∈ dfsAux nodes succ stack visited) := by
  intro stack visited
  induction stack, visited using dfsAux.induct nodes succ with
  | case1 visited =>
    intro hclosed
    rw [dfsAux]
    constructor
    · intro v hv y hy hyn
      rcases hclosed v hv y hy hyn with h | h
      · exact h
      · cases h
    · intro s hs
      cases hs
  | case2 x stack visited h ih =>
    intro hclosed
    rw [dfsAux, if_pos h]
    have hclosed' : ∀ v ∈ visited, ∀ y ∈ succ v, y ∈ nodes →
        y ∈ visited ∨ y ∈ stack := by
      intro v hv y hy hyn
      rcases hclosed v hv y hy hyn with h1 | h1
      · exact Or.inl h1
      · rcases List.mem_cons.mp h1 with rfl | h1
        · rcases h with h | h
          · exact Or.inl h
          · exact absurd hyn h
        · exact Or.inr h1
    rcases ih hclosed' with ⟨ihA, ihB⟩
    refine ⟨ihA, ?_⟩
    intro s hs hsn
    rcases List.mem_cons.mp hs with rfl | hs
    · rcases h with h | h
      · exact dfs_visited_subset nodes succ stack visited s h
      · exact absurd hsn h
    · exact ihB s hs hsn
  | case3 x stack visited h ih =>
    intro hclosed
    rw [dfsAux, if_neg h]
    push_neg at h
    have hclosed' : ∀ v ∈ x :: visited, ∀ y ∈ succ v, y ∈ nodes →
        y ∈ x :: visited ∨ y ∈ succ x ++ stack := by
      intro v hv y hy hyn
      rcases List.mem_cons.mp hv with rfl | hv
      · exact Or.inr (List.mem_append.mpr (Or.inl hy))
      · rcases hclosed v hv y hy hyn with h1 | h1
        · exact Or.inl (List.mem_cons_of_mem x h1)
        · rcases List.mem_cons.mp h1 with rfl | h1
          · exact Or.inl (List.mem_cons_self y visited)
          · exact Or.inr (List.mem_append.mpr (Or.inr h1))
    rcases ih hclosed' with ⟨ihA, ihB⟩
    refine ⟨ihA, ?_⟩
    intro s hs hsn
    rcases List.mem_cons.mp hs with rfl | hs
    · exact dfs_visited_subset nodes succ (succ s ++ stack) (s :: visited) s
        (List.mem_cons_self s visited)
    · exact ihB s (List.mem_append.mpr (Or.inr hs)) hsn

theorem reach_of_closed (R : List Nat) (succ : Nat → List Nat)
    (nodes : List Nat)
    (hclosed : ∀ v ∈ R, ∀ y ∈ succ v, y ∈ nodes → y ∈ R)
    (hsub : ∀ a b, b ∈ succ a → b ∈ nodes) :
    ∀ a b, ReachL succ a b → a ∈ R → b ∈ R := by
  intro a b h
  induction h with
  | refl a => exact id
  | step hab _ ih =>
    intro ha
    exact ih (hclosed _ ha _ hab (hsub _ _ hab))

theorem dfs_mem_iff (nodes : List Nat) (succ : Nat → List Nat)
    (hsub : ∀ a b, b ∈ succ a → b ∈ nodes) (start : Nat)
    (hstart : start ∈ nodes) (x : Nat) :
    x ∈ dfsAux nodes succ [start] [] ↔ ReachL succ start x := by
  constructor
  · intro hx
    apply dfs_sound nodes succ (ReachL succ start)
      (fun a b ha hb => ha.snoc hb) [start] []
      (fun s hs => by
        rcases List.mem_cons.mp hs with rfl | hs
        · exact ReachL.refl s
        · cases hs)
      (fun v hv => by cases hv) x hx
  · intro hreach
    rcases dfs_complete nodes succ [start] []
      (fun v hv => by cases hv) with ⟨hA, hB⟩
    have hstart' : start ∈ dfsAux nodes succ [start] [] :=
      hB start (List.mem_cons_self start []) hstart
    exact reach_of_closed (dfsAux nodes succ [start] []) succ nodes
      hA hsub start x hreach hstart'

theorem mark_alive_blocks_mem (cfg : cfg_t) (hwf : cfg.WF) (e x : Nat)
    (he : e ∈ cfg.blocks) :
    x ∈ cfg.mark_alive_blocks e ↔ cfg.Reaches x e := by
  have hsub : ∀ a b, b ∈ cfg.rev_succs a → b ∈ cfg.blocks := by
    intro a b hb
    have hedge : (b, a) ∈ cfg.edges := (mem_rev_succs cfg a b).mp hb
    exact (hwf.2.1 (b, a) hedge).1
  unfold cfg_t.mark_alive_blocks
  rw [dfs_mem_iff cfg.blocks cfg.rev_succs hsub e he x]
  constructor
  · intro h
    exact h.flip (fun a b hb => (mem_succs cfg b a).mpr
      ((mem_rev_succs cfg a b).mp hb))
  · intro h
    exact h.flip (fun a b hb => (mem_rev_succs cfg b a).mpr
      ((mem_succs cfg a b).mp hb))

theorem remove_useless_blocks_of_exit (cfg : cfg_t) (e : Nat)
    (he : cfg.exit = some e) :
    cfg.remove_useless_blocks =
      { blocks := cfg.blocks.filter
          (fun b => b ∈ cfg.mark_alive_blocks e),
        edges := cfg.edges.filter
          (fun p => p.1 ∈ cfg.mark_alive_blocks e ∧
                    p.2 ∈ cfg.mark_alive_blocks e),
        entry := cfg.entry,
        exit := cfg.exit } := by
  unfold cfg_t.remove_useless_blocks
  rw [he]

theorem remove_useless_blocks_mem (cfg : cfg_t) (hwf : cfg.WF) (e : Nat)
    (he : cfg.exit = some e) (b : Nat) :
    b ∈ cfg.remove_useless_blocks.blocks ↔
      b ∈ cfg.blocks ∧ cfg.Reaches b e := by
  rw [remove_useless_blocks_of_exit cfg e he]
  simp only [List.mem_filter, decide_eq_true_eq]
  rw [mark_alive_blocks_mem cfg hwf e b (hwf.2.2 e he)]

theorem remove_useless_blocks_mem_edges (cfg : cfg_t) (hwf : cfg.WF)
    (e : Nat) (he : cfg.exit = some e) (p : Nat × Nat) :
    p ∈ cfg.remove_useless_blocks.edges ↔
      p ∈ cfg.edges ∧ cfg.Reaches p.1 e ∧ cfg.Reaches p.2 e := by
  rw [remove_useless_blocks_of_exit cfg e he]
  simp only [List.mem_filter, decide_eq_true_eq]
  constructor
  · rintro ⟨hp, h1, h2⟩
    exact ⟨hp,
      (mark_alive_blocks_mem cfg hwf e p.1 (hwf.2.2 e he)).mp h1,
      (mark_alive_blocks_mem cfg hwf e p.2 (hwf.2.2 e he)).mp h2⟩
  · rintro ⟨hp, h1, h2⟩
    exact ⟨hp,
      (mark_alive_blocks_mem cfg hwf e p.1 (hwf.2.2 e he)).mpr h1,
      (mark_alive_blocks_mem cfg hwf e p.2 (hwf.2.2 e he)).mpr h2⟩

theorem remove_useless_blocks_no_exit (cfg : cfg_t)
    (h : cfg.exit = none) : cfg.remove_useless_blocks = cfg := by
  unfold cfg_t.remove_useless_blocks
  rw [h]

theorem remove_useless_blocks_WF (cfg : cfg_t) (hwf : cfg.WF) :
    cfg.remove_useless_blocks.WF := by
  cases hex : cfg.exit with
  | none => rw [remove_useless_blocks_no_exit cfg hex]; exact hwf
  | some e =>
    refine ⟨?_, ?_, ?_⟩
    · rw [remove_useless_blocks_of_exit cfg e hex]
      exact hwf.1.filter _
    · intro p hp
      rcases (remove_useless_blocks_mem_edges cfg hwf e hex p).mp hp with
        ⟨hpe, h1, h2⟩
      constructor
      · exact (remove_useless_blocks_mem cfg hwf e hex p.1).mpr
          ⟨(hwf.2.1 p hpe).1, h1⟩
      · exact (remove_useless_blocks_mem cfg hwf e hex p.2).mpr
          ⟨(hwf.2.1 p hpe).2, h2⟩
    · intro e' he'
      have hee : cfg.exit = some e' := by
        rw [remove_useless_blocks_of_exit cfg e hex] at he'
        exact he'
      have heq : e' = e := by rw [hex] at hee; exact (Option.some_inj.mp hee).symm
      rw [heq]
      exact (remove_useless_blocks_mem cfg hwf e hex e).mpr
        ⟨hwf.2.2 e hex, ReachL.refl e⟩

theorem reaches_remove_useless_blocks (cfg : cfg_t) (hwf : cfg.WF)
    (e : Nat) (he : cfg.exit = some e) :
    ∀ b c, ReachL cfg.succs b c → c = e →
      cfg.remove_useless_blocks.Reaches b c := by
  intro b c h
  induction h with
  | refl a => intro _; exact ReachL.refl a
  | step hab hr ih =>
    rename_i a b' c'
    intro hce
    have ihe := ih hce
    rw [hce] at hr ihe ⊢
    have hedge : (a, b') ∈ cfg.edges := (mem_succs cfg a b').mp hab
    have hae : cfg.Reaches a e := ReachL.step hab hr
    have hedge' : (a, b') ∈ cfg.remove_useless_blocks.edges :=
      (remove_useless_blocks_mem_edges cfg hwf e he (a, b')).mpr
        ⟨hedge, hae, hr⟩
    exact ReachL.step
      ((mem_succs cfg.remove_useless_blocks a b').mpr hedge') ihe

theorem remove_useless_blocks_exit (cfg : cfg_t) :
    cfg.remove_useless_blocks.exit = cfg.exit := by
  cases hex : cfg.exit with
  | none => rw [remove_useless_blocks_no_exit cfg hex]; exact hex
  | some e => rw [remove_useless_blocks_of_exit cfg e hex]; exact hex

theorem reaches_congr_edges (cfg1 cfg2 : cfg_t)
    (h : ∀ p, p ∈ cfg1.edges ↔ p ∈ cfg2.edges) (a b : Nat)
    (hr : cfg1.Reaches a b) : cfg2.Reaches a b := by
  induction hr with
  | refl a => exact ReachL.refl a
  | @step x y z hab _ ih =>
    exact ReachL.step ((mem_succs cfg2 x y).mpr
      ((h (x, y)).mp ((mem_succs cfg1 x y).mp hab))) ih

/-! ### Claim theorems about the pruning pass -/

/-- C1: for a well-formed CFG with exit block `e`, a block remains
after `remove_useless_blocks` iff it is a block of the CFG and a path
from it to `e` existed before pruning; among the original blocks, the
removed ones are exactly those that cannot reach `e`; and the surviving
block set does not depend on the traversal order — any relisting of the
same blocks and edges prunes to the same block set. -/
theorem prune_exactness (cfg : cfg_t) (e : Nat) (hwf : cfg.WF)
    (he : cfg.exit = some e) :
    (∀ b, b ∈ cfg.remove_useless_blocks.blocks ↔
       b ∈ cfg.blocks ∧ cfg.Reaches b e) ∧
    (∀ b ∈ cfg.blocks, b ∉ cfg.remove_useless_blocks.blocks ↔
       ¬ cfg.Reaches b e) ∧
    (∀ cfg2 : cfg_t, cfg2.blocks.Nodup →
       (∀ b, b ∈ cfg2.blocks ↔ b ∈ cfg.blocks) →
       (∀ p, p ∈ cfg2.edges ↔ p ∈ cfg.edges) →
       cfg2.exit = cfg.exit →
       ∀ b, b ∈ cfg2.remove_useless_blocks.blocks ↔
         b ∈ cfg.remove_useless_blocks.blocks) := by
  refine ⟨fun b => remove_useless_blocks_mem cfg hwf e he b, ?_, ?_⟩
  · intro b hb
    rw [remove_useless_blocks_mem cfg hwf e he b]
    simp [hb]
  · intro cfg2 hnd hb hp hexit b
    have he2 : cfg2.exit = some e := hexit.trans he
    have hwf2 : cfg2.WF := by
      refine ⟨hnd, ?_, ?_⟩
      · intro p hpe
        have hpe' : p ∈ cfg.edges := (hp p).mp hpe
        exact ⟨(hb p.1).mpr (hwf.2.1 p hpe').1,
               (hb p.2).mpr (hwf.2.1 p hpe').2⟩
      · intro e' he'
        have : cfg.exit = some e' := hexit.symm.trans he'
        exact (hb e').mpr (hwf.2.2 e' this)
    rw [remove_useless_blocks_mem cfg2 hwf2 e he2 b,
        remove_useless_blocks_mem cfg hwf e he b]
    constructor
    · rintro ⟨h1, h2⟩
      exact ⟨(hb b).mp h1, reaches_congr_edges cfg2 cfg hp b e h2⟩
    · rintro ⟨h1, h2⟩
      exact ⟨(hb b).mpr h1,
        reaches_congr_edges cfg cfg2 (fun p => (hp p).symm) b e h2⟩

/-- Closed instance of `prune_exactness` at a concrete CFG
(entry 0 → 1 → exit 2, plus a self-looping block 3 that cannot reach
the exit). -/
theorem prune_exactness_witness :
    1 ∈ (cfg_t.mk [0, 1, 2, 3] [(0, 1), (1, 2), (3, 3)] 0
        (some 2)).remove_useless_blocks.blocks ↔
      1 ∈ (cfg_t.mk [0, 1, 2, 3] [(0, 1), (1, 2), (3, 3)] 0
        (some 2)).blocks ∧
      (cfg_t.mk [0, 1, 2, 3] [(0, 1), (1, 2), (3, 3)] 0
        (some 2)).Reaches 1 2 :=
  (prune_exactness
    (cfg_t.mk [0, 1, 2, 3] [(0, 1), (1, 2), (3, 3)] 0 (some 2)) 2
    (by decide) rfl).1 1

/-- C7: for a CFG without an exit block, `remove_useless_blocks` is a
no-op: the CFG (in particular its blocks and edges) is unchanged. -/
theorem prune_no_exit_noop (cfg : cfg_t) (h : cfg.exit = none) :
    cfg.remove_useless_blocks = cfg :=
  remove_useless_blocks_no_exit cfg h

/-- Closed instance of `prune_no_exit_noop` at a concrete CFG. -/
theorem prune_no_exit_noop_witness :
    (cfg_t.mk [0, 1] [(0, 1)] 0 none).remove_useless_blocks =
      cfg_t.mk [0, 1] [(0, 1)] 0 none :=
  prune_no_exit_noop (cfg_t.mk [0, 1] [(0, 1)] 0 none) rfl

/-- C8: pruning is idempotent on well-formed CFGs: a second
`remove_useless_blocks` returns the first result unchanged (same
blocks, edges, entry and exit). -/
theorem prune_idempotent (cfg : cfg_t) (hwf : cfg.WF) :
    cfg.remove_useless_blocks.remove_useless_blocks =
      cfg.remove_useless_blocks := by
  cases hex : cfg.exit with
  | none =>
    rw [remove_useless_blocks_no_exit cfg hex]
    exact remove_useless_blocks_no_exit cfg hex
  | some e =>
    have hwfP : cfg.remove_useless_blocks.WF :=
      remove_useless_blocks_WF cfg hwf
    have heP : cfg.remove_useless_blocks.exit = some e :=
      (remove_useless_blocks_exit cfg).trans hex
    have heB : e ∈ cfg.remove_useless_blocks.blocks :=
      hwfP.2.2 e heP
    have hblocks : cfg.remove_useless_blocks.blocks.filter
        (fun b => b ∈ cfg.remove_useless_blocks.mark_alive_blocks e) =
        cfg.remove_useless_blocks.blocks := by
      apply List.filter_eq_self.mpr
      intro b hb
      simp only [decide_eq_true_eq]
      rw [mark_alive_blocks_mem cfg.remove_useless_blocks hwfP e b heB]
      rcases (remove_useless_blocks_mem cfg hwf e hex b).mp hb with ⟨_, hre⟩
      exact reaches_remove_useless_blocks cfg hwf e hex b e hre rfl
    have hedges : cfg.remove_useless_blocks.edges.filter
        (fun p => p.1 ∈ cfg.remove_useless_blocks.mark_alive_blocks e ∧
                  p.2 ∈ cfg.remove_useless_blocks.mark_alive_blocks e) =
        cfg.remove_useless_blocks.edges := by
      apply List.filter_eq_self.mpr
      intro p hp
      simp only [decide_eq_true_eq]
      rcases (remove_useless_blocks_mem_edges cfg hwf e hex p).mp hp with
        ⟨_, h1, h2⟩
      constructor
      · rw [mark_alive_blocks_mem cfg.remove_useless_blocks hwfP e p.1 heB]
        exact reaches_remove_useless_blocks cfg hwf e hex p.1 e h1 rfl
      · rw [mark_alive_blocks_mem cfg.remove_useless_blocks hwfP e p.2 heB]
        exact reaches_remove_useless_blocks cfg hwf e hex p.2 e h2 rfl
    rw [remove_useless_blocks_of_exit cfg.remove_useless_blocks e heP,
        hblocks, hedges]

/-- Closed instance of `prune_idempotent` at a concrete CFG. -/
theorem prune_idempotent_witness :
    (cfg_t.mk [0, 1, 2, 3] [(0, 1), (1, 2), (3, 3)] 0
        (some 2)).remove_useless_blocks.remove_useless_blocks =
      (cfg_t.mk [0, 1, 2, 3] [(0, 1), (1, 2), (3, 3)] 0
        (some 2)).remove_useless_blocks :=
  prune_idempotent
    (cfg_t.mk [0, 1, 2, 3] [(0, 1), (1, 2), (3, 3)] 0 (some 2))
    (by decide)

/-! ### Acceptance characterizations of the individual checks -/

theorem accepts_andThen (a b : check_result) :
    accepts (andThen a b) = (accepts a && accepts b) := by
  cases a <;> rfl

theorem accepts_check_num (v : variable_t) (m : String) :
    accepts (check_num v m) = true ↔
      v.type = variable_type_t.INT_TYPE := by
  by_cases h : v.type = variable_type_t.INT_TYPE <;>
    simp [check_num, h, accepts]

theorem accepts_check_bitwidth_if_int (v : variable_t) (m : String) :
    accepts (check_bitwidth_if_int v m) = true ↔
      (v.type = variable_type_t.INT_TYPE → 1 < v.bitwidth) := by
  by_cases h : v.type = variable_type_t.INT_TYPE
  · by_cases hb : v.bitwidth ≤ 1
    · have hnb : ¬ 1 < v.bitwidth := by omega
      simp [check_bitwidth_if_int, h, hb, accepts, hnb]
    · have hyb : 1 < v.bitwidth := by omega
      simp [check_bitwidth_if_int, h, hb, accepts, hyb]
  · simp [check_bitwidth_if_int, h, accepts]

theorem accepts_check_same_type (v1 v2 : variable_t) (m : String) :
    accepts (check_same_type v1 v2 m) = true ↔ v1.type = v2.type := by
  by_cases h : v1.type = v2.type <;> simp [check_same_type, h, accepts]

theorem accepts_check_same_bitwidth (v1 v2 : variable_t) (m : String) :
    accepts (check_same_bitwidth v1 v2 m) = true ↔
      (v1.type = variable_type_t.INT_TYPE → v1.bitwidth = v2.bitwidth) := by
  by_cases h : v1.type = variable_type_t.INT_TYPE
  · by_cases hb : v1.bitwidth = v2.bitwidth <;>
      simp [check_same_bitwidth, h, hb, accepts]
  · simp [check_same_bitwidth, h, accepts]

theorem accepts_check_num_or_var (e : linear_expression_t) (m : String) :
    accepts (check_num_or_var e m) = true ↔
      (e.is_constant = true ∨ e.get_variable.isSome = true) := by
  by_cases h1 : e.is_constant = true <;>
    by_cases h2 : e.get_variable.isSome = true <;>
      simp [check_num_or_var, h1, h2, accepts]

theorem accepts_check_array (v : variable_t) :
    accepts (check_array v) = true ↔
      v.type = variable_type_t.ARR_INT_TYPE := by
  cases h : v.type <;> simp [check_array, h, accepts]

theorem accepts_check_array_and_scalar_type (v1 v2 : variable_t) :
    accepts (check_array_and_scalar_type v1 v2) = true ↔
      (v1.type = variable_type_t.ARR_INT_TYPE ∧
       v2.type = variable_type_t.INT_TYPE) := by
  cases h1 : v1.type <;> by_cases h2 : v2.type = variable_type_t.INT_TYPE <;>
    simp [check_array_and_scalar_type, h1, h2, accepts]

theorem accepts_check_vars_vs_lhs (lhs : variable_t) (m1 m2 : String)
    (l : List variable_t) :
    accepts (check_vars_vs_lhs lhs m1 m2 l) = true ↔
      ∀ v ∈ l, lhs.type = v.type ∧
        (lhs.type = variable_type_t.INT_TYPE →
          lhs.bitwidth = v.bitwidth) := by
  induction l with
  | nil => simp [check_vars_vs_lhs, accepts]
  | cons v vs ih =>
    simp only [check_vars_vs_lhs, accepts_andThen, Bool.and_eq_true,
      accepts_check_same_type, accepts_check_same_bitwidth, ih,
      List.forall_mem_cons]
    tauto

theorem accepts_check_first_anchored_vars (first : variable_t)
    (mN mT mB : String) (l : List variable_t) :
    accepts (check_first_anchored_vars first mN mT mB l) = true ↔
      ∀ v ∈ l, v.type = variable_type_t.INT_TYPE ∧
        first.type = v.type ∧
        (first.type = variable_type_t.INT_TYPE →
          first.bitwidth = v.bitwidth) := by
  induction l with
  | nil => simp [check_first_anchored_vars, accepts]
  | cons v vs ih =>
    simp only [check_first_anchored_vars, accepts_andThen, Bool.and_eq_true,
      accepts_check_num, accepts_check_same_type,
      accepts_check_same_bitwidth, ih, List.forall_mem_cons]
    tauto

theorem accepts_check_select_cond_vars (lhs first : variable_t)
    (l : List variable_t) :
    accepts (check_select_cond_vars lhs first l) = true ↔
      ∀ v ∈ l, v.type = variable_type_t.INT_TYPE ∧
        lhs.type = v.type ∧ first.type = v.type ∧
        (first.type = variable_type_t.INT_TYPE →
          first.bitwidth = v.bitwidth) := by
  induction l with
  | nil => simp [check_select_cond_vars, accepts]
  | cons v vs ih =>
    simp only [check_select_cond_vars, accepts_andThen, Bool.and_eq_true,
      accepts_check_num, accepts_check_same_type,
      accepts_check_same_bitwidth, ih, List.forall_mem_cons]
    tauto

/-! ### Concrete sample variables, expressions and statements -/

/-- Integer variable of bit-width 32. -/
def vInt32 : variable_t := ⟨0, variable_type_t.INT_TYPE, 32⟩

/-- Integer variable of bit-width 8. -/
def vInt8 : variable_t := ⟨2, variable_type_t.INT_TYPE, 8⟩

/-- Integer variable of bit-width 16. -/
def vInt16 : variable_t := ⟨3, variable_type_t.INT_TYPE, 16⟩

/-- Integer variable of bit-width 1. -/
def vInt1 : variable_t := ⟨4, variable_type_t.INT_TYPE, 1⟩

/-- Array variable. -/
def vArr : variable_t := ⟨5, variable_type_t.ARR_INT_TYPE, 0⟩

/-- The expression consisting of the single variable `v`. -/
def evar (v : variable_t) : linear_expression_t := ⟨0, [(1, v)]⟩

/-- The constant expression `n`. -/
def econst (n : Int) : linear_expression_t := ⟨n, []⟩

/-- The two-variable expression `v + w`. -/
def esum (v w : variable_t) : linear_expression_t := ⟨0, [(1, v), (1, w)]⟩

/-- A linear expression that is a pure constant has no single
variable. -/
theorem get_variable_of_constant (e : linear_expression_t)
    (h : e.is_constant = true) : e.get_variable = none := by
  have he : e.terms = [] := by
    cases h2 : e.terms with
    | nil => rfl
    | cons a l =>
      unfold linear_expression_t.is_constant at h
      rw [h2] at h
      simp at h
  unfold linear_expression_t.get_variable
  rw [he]

/-- Acceptance characterization of the BinaryOp check: the lhs must be
a wide integer, the left operand must be a single variable agreeing
with lhs in type and bit-width, and a right operand is only constrained
when it is a single variable. -/
theorem accepts_ok : accepts (Except.ok ()) = true := rfl

theorem accepts_error (m : String) : accepts (Except.error m) = false := rfl

theorem accepts_check_binary_op_iff (s : binary_op_t) :
    accepts (check_binary_op s) = true ↔
      (s.lhs.type = variable_type_t.INT_TYPE ∧ 1 < s.lhs.bitwidth ∧
       (∃ v1, s.left.get_variable = some v1 ∧ v1.type = s.lhs.type ∧
          v1.bitwidth = s.lhs.bitwidth) ∧
       (∀ v2, s.right.get_variable = some v2 →
          v2.type = s.lhs.type ∧ v2.bitwidth = s.lhs.bitwidth)) := by
  cases hv1 : s.left.get_variable with
  | none =>
    simp [check_binary_op, hv1, accepts_andThen, accepts_error]
  | some v1 =>
    cases hv2 : s.right.get_variable with
    | none =>
      simp only [check_binary_op, hv1, hv2, accepts_andThen,
        Bool.and_eq_true, accepts_check_num, accepts_check_bitwidth_if_int,
        accepts_check_same_type, accepts_check_same_bitwidth,
        accepts_ok, Bool.and_true, Option.some.injEq]
      constructor
      · rintro ⟨hI, hb, ht, hw⟩
        refine ⟨hI, hb hI, ⟨v1, rfl, ht.symm, (hw hI).symm⟩, ?_⟩
        intro v2 h
        exact Option.noConfusion h
      · rintro ⟨hI, hb, ⟨v1x, heq, ht, hw⟩, _⟩
        rcases heq with rfl
        exact ⟨hI, fun _ => hb, ht.symm, fun _ => hw.symm⟩
    | some v2 =>
      simp only [check_binary_op, hv1, hv2, accepts_andThen,
        Bool.and_eq_true, accepts_check_num, accepts_check_bitwidth_if_int,
        accepts_check_same_type, accepts_check_same_bitwidth,
        Option.some.injEq]
      constructor
      · rintro ⟨hI, hb, ⟨ht1, hw1⟩, ht2, hw2⟩
        exact ⟨hI, hb hI, ⟨v1, rfl, ht1.symm, (hw1 hI).symm⟩,
          fun v2x heq => by
            rcases heq with rfl
            exact ⟨ht2.symm, (hw2 hI).symm⟩⟩
      · rintro ⟨hI, hb, ⟨v1x, heq, ht1, hw1⟩, h2⟩
        rcases heq with rfl
        rcases h2 v2 rfl with ⟨ht2, hw2⟩
        exact ⟨hI, fun _ => hb, ⟨ht1.symm, fun _ => hw1.symm⟩,
          ht2.symm, fun _ => hw2.symm⟩

/-! ### Claim theorems about the type checker -/

/-- An ArrayLoad whose array and lhs are well typed but whose elem_size
is the two-variable expression `x + y`. -/
def arrayLoadGeneralSize : array_load_t :=
  { lhs := vInt32, array := vArr, elem_size := esum vInt8 vInt16 }

/-- C2 counterexample: acceptance of an ArrayLoad is not determined by
the array and lhs types alone — with both types correct but elem_size a
two-variable expression, `check_num_or_var` rejects the statement. -/
theorem array_load_not_type_only :
    ¬ (accepts (check_array_load arrayLoadGeneralSize) = true ↔
        (arrayLoadGeneralSize.array.type = variable_type_t.ARR_INT_TYPE ∧
         arrayLoadGeneralSize.lhs.type = variable_type_t.INT_TYPE)) := by
  decide

/-- C2 (amended): an ArrayLoad passes iff the array has type
ArrayOfInteger, the lhs has type Integer, and elem_size is a constant
or a single variable.  In particular for a constant elem_size the
concrete value is irrelevant, since acceptance depends only on
`is_constant`/`get_variable`. -/
theorem check_array_load_iff (s : array_load_t) :
    accepts (check_array_load s) = true ↔
      (s.array.type = variable_type_t.ARR_INT_TYPE ∧
       s.lhs.type = variable_type_t.INT_TYPE ∧
       (s.elem_size.is_constant = true ∨
        s.elem_size.get_variable.isSome = true)) := by
  simp only [check_array_load, accepts_andThen, Bool.and_eq_true,
    accepts_check_array, accepts_check_num_or_var,
    accepts_check_array_and_scalar_type]
  tauto

/-- An Assign whose lhs is an Integer variable of bit-width 1, with an
rhs variable also of type Integer and bit-width 1. -/
def assignWidthOne : assign_t :=
  { lhs := vInt1, rhs := evar ⟨6, variable_type_t.INT_TYPE, 1⟩ }

/-- C3 counterexample: for `W = 1` the claimed equivalence fails — all
rhs variables are Integer of bit-width 1, yet the check rejects the
statement on the `bitwidth > 1` precondition of the lhs. -/
theorem assign_not_width_propagation_only :
    ¬ (accepts (check_assign assignWidthOne) = true ↔
        ∀ v ∈ assignWidthOne.rhs.variables,
          v.type = variable_type_t.INT_TYPE ∧
          v.bitwidth = assignWidthOne.lhs.bitwidth) := by
  decide

/-- C3 (amended): for an Assign whose lhs is an Integer variable of
bit-width `W > 1`, the check passes iff every variable referenced in
rhs has type Integer and bit-width `W`.  (For `W ≤ 1` the check always
fails on the lhs bit-width precondition.) -/
theorem check_assign_iff (s : assign_t)
    (hty : s.lhs.type = variable_type_t.INT_TYPE)
    (hw : 1 < s.lhs.bitwidth) :
    accepts (check_assign s) = true ↔
      ∀ v ∈ s.rhs.variables, v.type = variable_type_t.INT_TYPE ∧
        v.bitwidth = s.lhs.bitwidth := by
  simp only [check_assign, accepts_andThen, Bool.and_eq_true,
    accepts_check_num, accepts_check_bitwidth_if_int,
    accepts_check_vars_vs_lhs]
  constructor
  · rintro ⟨_, _, h⟩ v hv
    rcases h v hv with ⟨h1, h2⟩
    exact ⟨h1 ▸ hty, (h2 hty).symm⟩
  · intro h
    refine ⟨hty, fun _ => hw, ?_⟩
    intro v hv
    rcases h v hv with ⟨h1, h2⟩
    exact ⟨hty.trans h1.symm, fun _ => h2.symm⟩

/-- Closed instance of `check_assign_iff` at a concrete Assign of
bit-width 32. -/
theorem check_assign_iff_witness :
    accepts (check_assign
        { lhs := vInt32,
          rhs := evar ⟨7, variable_type_t.INT_TYPE, 32⟩ }) = true ↔
      ∀ v ∈ (evar ⟨7, variable_type_t.INT_TYPE, 32⟩).variables,
        v.type = variable_type_t.INT_TYPE ∧ v.bitwidth = vInt32.bitwidth :=
  check_assign_iff
    { lhs := vInt32, rhs := evar ⟨7, variable_type_t.INT_TYPE, 32⟩ }
    rfl (by decide)

/-- C4: an ArrayStore marked singleton whose lower- and upper-index
expressions are not syntactically equal is always rejected with the
fatal singleton message, independent of the array, elem_size and value
fields. -/
theorem check_array_store_singleton_neq (s : array_store_t)
    (h1 : s.is_singleton = true) (h2 : s.lb_index ≠ s.ub_index) :
    check_array_store s = Except.error
      "lower and upper indexes must be equal because array is a singleton" := by
  have hne : s.lb_index.equal s.ub_index = false := by
    unfold linear_expression_t.equal
    simpa using h2
  unfold check_array_store
  rw [if_pos h1, if_neg (by rw [hne]; exact Bool.false_ne_true)]
  rfl

/-- Closed instance of `check_array_store_singleton_neq` at a concrete
singleton store with indexes 0 and 1. -/
theorem check_array_store_singleton_neq_witness :
    check_array_store
      { array := vArr, elem_size := econst 4, lb_index := econst 0,
        ub_index := econst 1, value := econst 0, is_singleton := true } =
    Except.error
      "lower and upper indexes must be equal because array is a singleton" :=
  check_array_store_singleton_neq
    { array := vArr, elem_size := econst 4, lb_index := econst 0,
      ub_index := econst 1, value := econst 0, is_singleton := true }
    rfl (by decide)

/-- When a Select passes the checker, every condition variable is an
integer, has the type of lhs, and all condition variables agree
pairwise in type and bit-width. -/
theorem check_select_ok_cond (s : select_t)
    (h : accepts (check_select s) = true) :
    ∀ v ∈ s.cond.variables, v.type = variable_type_t.INT_TYPE ∧
      v.type = s.lhs.type ∧
      ∀ w ∈ s.cond.variables,
        v.type = w.type ∧ v.bitwidth = w.bitwidth := by
  simp only [check_select, accepts_andThen, Bool.and_eq_true] at h
  rcases h with ⟨_, _, _, _, h5⟩
  cases hcv : s.cond.variables with
  | nil =>
    intro v hv
    cases hv
  | cons v0 vs =>
    rw [hcv] at h5
    have hall := (accepts_check_select_cond_vars s.lhs v0 (v0 :: vs)).mp h5
    have hv0I : v0.type = variable_type_t.INT_TYPE :=
      (hall v0 (List.mem_cons_self v0 vs)).1
    intro v hv
    rcases hall v hv with ⟨hvI, hlhs, hfirst, hbw⟩
    refine ⟨hvI, hlhs.symm, ?_⟩
    intro w hw
    rcases hall w hw with ⟨hwI, _, _, hbw'⟩
    exact ⟨hvI.trans hwI.symm, (hbw hv0I).symm.trans (hbw' hv0I)⟩

/-- C5: if a Select passes, every condition variable is Integer-typed,
has the same type as lhs, and the condition variables agree pairwise in
type and bit-width; the condition bit-width is not compared against the
lhs bit-width (a passing Select whose condition bit-width differs from
the lhs bit-width exists); and a Select whose condition uses two
Integer variables of different bit-widths is always rejected. -/
theorem check_select_cond_props :
    (∀ s : select_t, accepts (check_select s) = true →
       ∀ v ∈ s.cond.variables, v.type = variable_type_t.INT_TYPE ∧
         v.type = s.lhs.type ∧
         ∀ w ∈ s.cond.variables,
           v.type = w.type ∧ v.bitwidth = w.bitwidth) ∧
    (∃ s : select_t, accepts (check_select s) = true ∧
       ∃ v ∈ s.cond.variables, v.bitwidth ≠ s.lhs.bitwidth) ∧
    (∀ s : select_t,
       (∃ v ∈ s.cond.variables, ∃ w ∈ s.cond.variables,
          v.type = variable_type_t.INT_TYPE ∧
          w.type = variable_type_t.INT_TYPE ∧
          v.bitwidth ≠ w.bitwidth) →
       accepts (check_select s) = false) := by
  refine ⟨fun s h => check_select_ok_cond s h, ?_, ?_⟩
  · refine ⟨{ lhs := vInt32,
              cond := ⟨constraint_kind_t.INEQUALITY, evar vInt8⟩,
              left := econst 1, right := econst 2 }, by decide, ?_⟩
    exact ⟨vInt8, by decide, by decide⟩
  · intro s hs
    rcases hs with ⟨v, hv, w, hw, _, _, hne⟩
    cases hacc : accepts (check_select s) with
    | false => rfl
    | true =>
      exfalso
      exact hne ((check_select_ok_cond s hacc v hv).2.2 w hw).2

/-- Closed instance of `check_select_cond_props`: the concrete Select
whose condition uses Integer variables of bit-widths 8 and 16 is
rejected. -/
theorem check_select_cond_props_witness :
    accepts (check_select
      { lhs := vInt32,
        cond := ⟨constraint_kind_t.INEQUALITY, esum vInt8 vInt16⟩,
        left := econst 1, right := econst 2 }) = false :=
  check_select_cond_props.2.2
    { lhs := vInt32,
      cond := ⟨constraint_kind_t.INEQUALITY, esum vInt8 vInt16⟩,
      left := econst 1, right := econst 2 }
    ⟨vInt8, by decide, vInt16, by decide, by decide, by decide, by decide⟩

/-- C6: a BinaryOp whose left operand is not a single variable is
always rejected; when the left operand is a variable, acceptance forces
it to agree with lhs in type and bit-width; when the right operand is a
single variable, acceptance forces the same agreement; and when the
right operand is a pure constant its value is never inspected — two
BinaryOps differing only in the right constant get identical
verdicts. -/
theorem check_binary_op_props :
    (∀ s : binary_op_t, s.left.get_variable = none →
       accepts (check_binary_op s) = false) ∧
    (∀ s : binary_op_t, ∀ v1, s.left.get_variable = some v1 →
       accepts (check_binary_op s) = true →
       v1.type = s.lhs.type ∧ v1.bitwidth = s.lhs.bitwidth) ∧
    (∀ s : binary_op_t, ∀ v2, s.right.get_variable = some v2 →
       accepts (check_binary_op s) = true →
       v2.type = s.lhs.type ∧ v2.bitwidth = s.lhs.bitwidth) ∧
    (∀ s1 s2 : binary_op_t, s1.lhs = s2.lhs → s1.left = s2.left →
       s1.right.is_constant = true → s2.right.is_constant = true →
       check_binary_op s1 = check_binary_op s2) := by
  refine ⟨?_, ?_, ?_, ?_⟩
  · intro s h
    cases hacc : accepts (check_binary_op s) with
    | false => rfl
    | true =>
      exfalso
      rcases (accepts_check_binary_op_iff s).mp hacc with
        ⟨_, _, ⟨v1, hv1, _⟩, _⟩
      rw [h] at hv1
      exact Option.noConfusion hv1
  · intro s v1 h hacc
    rcases (accepts_check_binary_op_iff s).mp hacc with
      ⟨_, _, ⟨v1x, hv1, ht, hw⟩, _⟩
    rw [h] at hv1
    obtain rfl := Option.some_inj.mp hv1
    exact ⟨ht, hw⟩
  · intro s v2 h hacc
    rcases (accepts_check_binary_op_iff s).mp hacc with ⟨_, _, _, h2⟩
    exact h2 v2 h
  · intro s1 s2 hlhs hleft hc1 hc2
    unfold check_binary_op
    rw [hlhs, hleft, get_variable_of_constant s1.right hc1,
        get_variable_of_constant s2.right hc2]

/-- Closed instance of `check_binary_op_props`: a BinaryOp whose left
operand is the constant 1 is rejected. -/
theorem check_binary_op_props_witness :
    accepts (check_binary_op
      { lhs := vInt32, left := econst 1, right := econst 2 }) = false :=
  check_binary_op_props.1
    { lhs := vInt32, left := econst 1, right := econst 2 } (by decide)

/-- C9: when the right operand of a BinaryOp is a general linear
expression — neither a pure constant nor a single variable — the right
operand is not checked at all: the statement is accepted exactly when
the lhs checks together with the left-operand checks pass. -/
theorem check_binary_op_general_right (s : binary_op_t)
    (_hc : s.right.is_constant = false)
    (hv : s.right.get_variable = none) :
    accepts (check_binary_op s) = true ↔
      (s.lhs.type = variable_type_t.INT_TYPE ∧ 1 < s.lhs.bitwidth ∧
       ∃ v1, s.left.get_variable = some v1 ∧ v1.type = s.lhs.type ∧
         v1.bitwidth = s.lhs.bitwidth) := by
  rw [accepts_check_binary_op_iff s]
  constructor
  · rintro ⟨h1, h2, h3, _⟩
    exact ⟨h1, h2, h3⟩
  · rintro ⟨h1, h2, h3⟩
    refine ⟨h1, h2, h3, ?_⟩
    intro v2 hv2
    rw [hv] at hv2
    exact Option.noConfusion hv2

/-- Closed instance of `check_binary_op_general_right` at a concrete
BinaryOp whose right operand is the sum of two variables. -/
theorem check_binary_op_general_right_witness :
    accepts (check_binary_op
      { lhs := vInt32, left := evar ⟨8, variable_type_t.INT_TYPE, 32⟩,
        right := esum vInt8 vInt16 }) = true ↔
      (vInt32.type = variable_type_t.INT_TYPE ∧ 1 < vInt32.bitwidth ∧
       ∃ v1, (evar ⟨8, variable_type_t.INT_TYPE, 32⟩).get_variable =
           some v1 ∧
         v1.type = vInt32.type ∧ v1.bitwidth = vInt32.bitwidth) :=
  check_binary_op_general_right
    { lhs := vInt32, left := evar ⟨8, variable_type_t.INT_TYPE, 32⟩,
      right := esum vInt8 vInt16 } (by decide) (by decide)

/-- C10: an Assume or an Assert whose constraint references no
variables performs no check and always passes. -/
theorem check_assume_assert_no_vars (s1 : assume_t) (s2 : assert_t)
    (h1 : s1.constraint.variables = [])
    (h2 : s2.constraint.variables = []) :
    check_assume s1 = Except.ok () ∧ check_assert s2 = Except.ok () := by
  constructor
  · unfold check_assume
    rw [h1]
  · unfold check_assert
    rw [h2]

/-- Closed instance of `check_assume_assert_no_vars` at the constant
constraints `3 < 0` and `0 = 0`. -/
theorem check_assume_assert_no_vars_witness :
    check_assume ⟨⟨constraint_kind_t.INEQUALITY, econst 3⟩⟩ =
        Except.ok () ∧
    check_assert ⟨⟨constraint_kind_t.EQUALITY, econst 0⟩⟩ =
        Except.ok () :=
  check_assume_assert_no_vars
    ⟨⟨constraint_kind_t.INEQUALITY, econst 3⟩⟩
    ⟨⟨constraint_kind_t.EQUALITY, econst 0⟩⟩ rfl rfl
